import Mathlib

/-!
Shallow embedding of the box lifecycle and request-serialization subsystem of
camisole (file `camisole/isolate.py`): the metadata parser inlined in
`Isolator.__aexit__`, the argv builder in `Isolator.run`, the stdout/stderr
read-back error path of `Isolator.run`, the `acquire_box` protocol, and a
transition system for the per-box locking discipline.

Machine conventions: Python `int` is `Int`; a Python `float` is kept as the
exact decimal it was parsed from, as a canonical pair `(num, scale)` with
value `num / 10 ^ scale` and trailing fractional zeros stripped, so that the
finite decimals occurring in isolate meta files compare equal exactly when
Python compares them equal; Python `bytes` is `List Nat`; Python `dict` is
an association list with
first-occurrence lookup and update-in-place-or-append insertion, which is
exactly the observable behaviour of an insertion-ordered Python dict.
Python exceptions are modelled with `Except`.
-/

/-- Python exceptions that the meta-parsing code in `Isolator.__aexit__` can
raise: `KeyError` from `meta_defaults[k]` on an unknown key, and `ValueError`
from `dict(...)` on a 1-element sequence item or from a failed `int()`/`float()`
coercion. -/
inductive PyErr where
  | keyError (k : String)
  | valueError
deriving DecidableEq, Repr

/-- Python values stored in the meta dictionary of `Isolator.__aexit__`:
integers, floats, booleans, strings and `None`. -/
inductive PyVal where
  | vint (n : Int)
  | vfloat (num : Int) (scale : Nat)
  | vbool (b : Bool)
  | vstr (r : String)
  | vnone
deriving DecidableEq, Repr

/-- Python truthiness (`bool(x)`) of a meta value: nonzero numbers, `True`,
and non-empty strings are truthy; `None` is falsy. -/
def pyTruthy : PyVal → Bool
  | .vint n => n ≠ 0
  | .vfloat num _ => num ≠ 0
  | .vbool b => b
  | .vstr r => r ≠ ""
  | .vnone => false

/-- Association-list lookup: the value at the first occurrence of key `k`.
Models Python `d[k]` / `d.get(k)` on an insertion-ordered dict. -/
def dictGet {α : Type} (d : List (String × α)) (k : String) : Option α :=
  match d with
  | [] => Option.none
  | p :: rest => if p.1 = k then some p.2 else dictGet rest k

/-- Association-list insertion: update the value at an existing key in place,
else append the pair.  Models Python `d[k] = v` on an insertion-ordered dict. -/
def dictInsert {α : Type} (k : String) (v : α) : List (String × α) → List (String × α)
  | [] => [(k, v)]
  | p :: rest => if p.1 = k then (k, v) :: rest else p :: dictInsert k v rest

/-- Association-list deletion of a key.  Models Python `d.pop(k)` (the removal
part; the returned value is read separately with `dictGet`). -/
def dictPop {α : Type} (k : String) (d : List (String × α)) : List (String × α) :=
  d.filter (fun p => p.1 ≠ k)

/-- Python `{**base, **m}` / `base.update(m)`: fold the entries of `m` into
`base` with update-in-place-or-append semantics. -/
def dictMerge {α : Type} (base m : List (String × α)) : List (String × α) :=
  m.foldl (fun acc p => dictInsert p.1 p.2 acc) base

/-- The digits of a decimal literal as a natural number. -/
def natOfDigits (l : List Char) : Nat :=
  l.foldl (fun a c => a * 10 + (c.toNat - 48)) 0

/-- A non-empty all-digit character list. -/
def isDigits (l : List Char) : Bool :=
  !l.isEmpty && l.all (·.isDigit)

/-- Python `str.strip()` with no argument: remove leading and trailing
whitespace.  (Python strips a few more exotic whitespace code points than
`Char.isWhitespace`; isolate meta files contain none of them.) -/
def pyStrip (s : String) : String :=
  String.mk
    (((s.data.dropWhile Char.isWhitespace).reverse.dropWhile
        Char.isWhitespace).reverse)

/-- Python `int(s)` on a string: strip whitespace, optional sign, decimal
digits; anything else raises `ValueError`.  (Python also accepts underscore
separators and non-ASCII digits, which never occur in isolate meta files.) -/
def pyInt (s : String) : Except PyErr Int :=
  match (pyStrip s).data with
  | '-' :: rest => if isDigits rest then .ok (-(natOfDigits rest : Int)) else .error .valueError
  | '+' :: rest => if isDigits rest then .ok (natOfDigits rest : Int) else .error .valueError
  | rest => if isDigits rest then .ok (natOfDigits rest : Int) else .error .valueError

/-- The unsigned decimal forms accepted by Python `float(s)`: `digits`,
`digits.digits`, `digits.` and `.digits` (exponent forms and `inf`/`nan`
never occur in isolate meta files).  Returns the canonical exact-decimal
pair: value `n / 10 ^ scale` with trailing fractional zeros stripped. -/
def pyFloatCore (l : List Char) : Option (Nat × Nat) :=
  let ip := l.takeWhile (·.isDigit)
  match l.dropWhile (·.isDigit) with
  | [] => if ip.isEmpty then Option.none else some (natOfDigits ip, 0)
  | '.' :: fp =>
      if fp.all (·.isDigit) && !(ip.isEmpty && fp.isEmpty) then
        let fp2 := (fp.reverse.dropWhile (fun c => c = '0')).reverse
        some (natOfDigits ip * 10 ^ fp2.length + natOfDigits fp2, fp2.length)
      else Option.none
  | _ => Option.none

/-- Python `float(s)` on a string: strip whitespace, optional sign, decimal
form; anything else raises `ValueError`. -/
def pyFloat (s : String) : Except PyErr (Int × Nat) :=
  match (pyStrip s).data with
  | '-' :: rest => match pyFloatCore rest with
      | some p => .ok (-(p.1 : Int), p.2)
      | Option.none => .error .valueError
  | '+' :: rest => match pyFloatCore rest with
      | some p => .ok ((p.1 : Int), p.2)
      | Option.none => .error .valueError
  | rest => match pyFloatCore rest with
      | some p => .ok ((p.1 : Int), p.2)
      | Option.none => .error .valueError

/-- The `meta_defaults` dict of `Isolator.__aexit__` (isolate.py lines
268-282), in source order. -/
def meta_defaults : List (String × PyVal) :=
  [("cg-mem", .vint 0),
   ("cg-oom-killed", .vint 0),
   ("csw-forced", .vint 0),
   ("csw-voluntary", .vint 0),
   ("exitcode", .vint 0),
   ("exitsig", .vint 0),
   ("exitsig-message", .vnone),
   ("killed", .vbool false),
   ("max-rss", .vint 0),
   ("message", .vnone),
   ("status", .vstr "OK"),
   ("time", .vfloat 0 0),
   ("time-wall", .vfloat 0 0)]

/-- Split a character list at its first colon. -/
def splitCharsAtColon : List Char → Option (List Char × List Char)
  | [] => Option.none
  | c :: rest =>
      if c = ':' then some ([], rest)
      else
        match splitCharsAtColon rest with
        | some p => some (c :: p.1, p.2)
        | Option.none => Option.none

/-- Python `line.split(':', 1)`: split at the first colon.  `Option.none`
means the line contains no colon, in which case the element fed to
`dict(...)` has length 1 and `dict` raises `ValueError`. -/
def splitOnceColon (s : String) : Option (String × String) :=
  match splitCharsAtColon s.data with
  | some p => some (String.mk p.1, String.mk p.2)
  | Option.none => Option.none

/-- Lines 283-284 of isolate.py: strip every line of the meta file and keep
the non-empty ones (`line.strip() ... if line`). -/
def stripNonEmpty (content : List String) : List String :=
  (content.map pyStrip).filter (fun l => l ≠ "")

/-- Worker for `buildRawDict`: consume the lines in order, inserting each
`key:value` split into the accumulating dict, exactly as Python `dict(...)`
consumes its generator argument. -/
def buildRawDictAux (d : List (String × String)) :
    List String → Except PyErr (List (String × String))
  | [] => .ok d
  | line :: rest =>
      match splitOnceColon line with
      | some kv => buildRawDictAux (dictInsert kv.1 kv.2 d) rest
      | Option.none => .error .valueError

/-- Line 285 of isolate.py: `m = dict(line.split(':', 1) for line in m if line)`.
Builds the raw string-to-string dict; a line without a colon yields a length-1
sequence element, on which Python `dict` raises `ValueError`. -/
def buildRawDict (lines : List String) : Except PyErr (List (String × String)) :=
  buildRawDictAux [] lines

/-- Lines 286-288 of isolate.py, for one entry: coerce the raw string value
with `type(meta_defaults[k])(v) if meta_defaults[k] is not None else v`.
An unknown key makes `meta_defaults[k]` raise `KeyError`; `int`/`float`
coercion can raise `ValueError`; `bool(v)` on a string is `v ≠ ""`;
`str(v)` is `v`; a `None` default keeps the value as the raw string. -/
def coerceEntry (k v : String) : Except PyErr (String × PyVal) :=
  match dictGet meta_defaults k with
  | Option.none => .error (.keyError k)
  | some dflt =>
      match dflt with
      | .vnone => .ok (k, .vstr v)
      | .vint _ => (pyInt v).map (fun n => (k, .vint n))
      | .vfloat _ _ => (pyFloat v).map (fun p => (k, .vfloat p.1 p.2))
      | .vbool _ => .ok (k, .vbool (v ≠ ""))
      | .vstr _ => .ok (k, .vstr v)

/-- Lines 286-288 of isolate.py: the dict comprehension coercing every parsed
entry in order; the first entry whose coercion raises aborts the whole
comprehension with that exception. -/
def coerceAll : List (String × String) → Except PyErr (List (String × PyVal))
  | [] => .ok []
  | p :: rest =>
      match coerceEntry p.1 p.2 with
      | .error e => .error e
      | .ok q =>
          match coerceAll rest with
          | .error e => .error e
          | .ok m => .ok (q :: m)

/-- Lines 289-290 of isolate.py: `if 'exitsig' in m:
m['exitsig-message'] = signal_message(m['exitsig'])`.  After coercion the
`exitsig` value is always an integer (its default has type `int`). -/
def fillExitsigMessage (sigMsg : Int → String) (m : List (String × PyVal)) :
    List (String × PyVal) :=
  match dictGet m "exitsig" with
  | some (.vint n) => dictInsert "exitsig-message" (.vstr (sigMsg n)) m
  | some _ => m
  | Option.none => m

/-- The `verbose_status` dict of `Isolator.__aexit__` (lines 292-298). -/
def verbose_status : List (String × String) :=
  [("OK", "OK"),
   ("RE", "RUNTIME_ERROR"),
   ("TO", "TIMED_OUT"),
   ("SG", "SIGNALED"),
   ("XX", "INTERNAL_ERROR")]

/-- Line 299 of isolate.py: `self.meta['status'] = verbose_status[self.meta['status']]`.
The merged dict always holds a string at `status` (the default is the string
`OK` and the coercion target for a parsed `status` is `str`); an unrecognized
short code makes the `verbose_status[...]` subscript raise `KeyError`. -/
def applyVerboseStatus (m : List (String × PyVal)) :
    Except PyErr (List (String × PyVal)) :=
  match dictGet m "status" with
  | some (.vstr s) =>
      match dictGet verbose_status s with
      | some vs => .ok (dictInsert "status" (.vstr vs) m)
      | Option.none => .error (.keyError s)
  | _ => .error (.keyError "status")

/-- Truthiness of `d.get(k)`: `None` (absent key) is falsy. -/
def getTruthy (m : List (String × PyVal)) (k : String) : Bool :=
  match dictGet m k with
  | some v => pyTruthy v
  | Option.none => false

/-- Lines 301-302 of isolate.py: `if self.meta.get('cg-oom-killed'):
self.meta['status'] = 'OUT_OF_MEMORY'`. -/
def applyOomOverride (m : List (String × PyVal)) : List (String × PyVal) :=
  if getTruthy m "cg-oom-killed" then dictInsert "status" (.vstr "OUT_OF_MEMORY") m else m

/-- The `ISOLATE_TO_CAMISOLE_META` rename (lines 182-186 and 304-306 of
isolate.py): `self.meta['wall-time'] = self.meta.pop('time-wall')` when
`time-wall` is present. -/
def applyMetaRename (m : List (String × PyVal)) : List (String × PyVal) :=
  match dictGet m "time-wall" with
  | some v => dictInsert "wall-time" v (dictPop "time-wall" m)
  | Option.none => m

/-- The meta-parsing pipeline of `Isolator.__aexit__` (isolate.py lines
283-306), parameterized by the `signal_message` lookup (line 150, a libc
`strsignal` call): strip and drop empty lines, build the raw dict, coerce
values against `meta_defaults`, fill `exitsig-message`, merge over the
defaults (`{**meta_defaults, **m}`), translate the short status code, apply
the OOM override, and rename `time-wall` to `wall-time`. -/
def aexit_meta (sigMsg : Int → String) (content : List String) :
    Except PyErr (List (String × PyVal)) :=
  match buildRawDict (stripNonEmpty content) with
  | .error e => .error e
  | .ok raw =>
      match coerceAll raw with
      | .error e => .error e
      | .ok m =>
          match applyVerboseStatus (dictMerge meta_defaults (fillExitsigMessage sigMsg m)) with
          | .error e => .error e
          | .ok merged => .ok (applyMetaRename (applyOomOverride merged))

/-- Modelled from the spec: the source's `signal_message` (isolate.py lines
150-151) delegates to libc `strsignal`, which is outside the embedding; per
the design notes, any static table producing a short human-readable name per
signal number is acceptable.  Numbers without an entry get the glibc-style
`Unknown signal N` text. -/
def signal_message (n : Int) : String :=
  match n with
  | 1 => "Hangup"
  | 2 => "Interrupt"
  | 6 => "Aborted"
  | 9 => "Killed"
  | 11 => "Segmentation fault"
  | 15 => "Terminated"
  | _ => "Unknown signal " ++ toString n

/-- Python `str(x)` for the value kinds occurring in `meta_defaults`: `str` of
an integral-valued float such as `0.0` is rendered with a trailing `.0` as
Python does; `str(False)` is the word `False`, `str(None)` the word `None`. -/
def pyStr : PyVal → String
  | .vint n => toString n
  | .vfloat num scale =>
      let a := num.natAbs
      let ip := a / 10 ^ scale
      let fr := a % 10 ^ scale
      let frs := toString fr
      let core :=
        if scale = 0 then toString ip ++ ".0"
        else toString ip ++ "." ++
          (String.mk (List.replicate (scale - frs.length) (Char.ofNat 48)) ++ frs)
      if num < 0 then "-" ++ core else core
  | .vbool b => if b then "True" else "False"
  | .vstr r => r
  | .vnone => "None"

/-- Modelled from the spec: the meta-file encoder used by testable property 5
(encoding a MetaRecord "to key:value lines", one field per line); the source
has no encoder, so fields are rendered with Python `str()` as `key:value`. -/
def encodeMeta (d : List (String × PyVal)) : List String :=
  d.map (fun p => p.1 ++ ":" ++ pyStr p.2)

/-- The `info` record assembled in `Isolator.__aexit__` (isolate.py lines
308-313): `stdout`, `stderr` and `exitcode` are whatever `self.stdout`,
`self.stderr` and `self.isolate_retcode` currently hold (`Option`-typed,
since `__init__` sets them to `None`), plus the parsed meta dict. -/
structure Info where
  stdout : Option (List Nat)
  stderr : Option (List Nat)
  exitcode : Option Int
  meta : List (String × PyVal)
deriving DecidableEq, Repr

/-- An `Isolator` session that is entered and exited without any `run` call:
`__init__` (isolate.py lines 224-231) leaves `self.stdout`, `self.stderr` and
`self.isolate_retcode` at `None`, `__aenter__` creates an empty temporary
meta file, and `__aexit__` parses that empty file and stores `self.info`. -/
def sessionNoRunInfo (sigMsg : Int → String) : Except PyErr Info :=
  (aexit_meta sigMsg []).map
    (fun m => ⟨Option.none, Option.none, Option.none, m⟩)

/-- The `CAMISOLE_OPTIONS` list (isolate.py lines 164-174), in source order. -/
def CAMISOLE_OPTIONS : List String :=
  ["extra-time", "fsize", "mem", "processes", "quota", "stack", "time",
   "virt-mem", "wall-time"]

/-- The `CAMISOLE_TO_ISOLATE_OPTS` key map (isolate.py lines 176-180). -/
def CAMISOLE_TO_ISOLATE_OPTS : List (String × String) :=
  [("virt-mem", "mem"), ("mem", "cg-mem")]

/-- Line 334 of isolate.py: `iopt = CAMISOLE_TO_ISOLATE_OPTS.get(opt, opt)`. -/
def isolateOpt (opt : String) : String :=
  match dictGet CAMISOLE_TO_ISOLATE_OPTS opt with
  | some i => i
  | Option.none => opt

/-- Lines 332-340 of isolate.py, for one option key: if the user supplied a
value emit `--iopt=value`; otherwise emit the short `-p` flag when the mapped
key is `processes` (camisole does not limit the number of processes by
default, unlike isolate) and nothing for any other omitted key. -/
def optionFlags (opts : String → Option String) (opt : String) : List String :=
  match opts opt with
  | some v => ["--" ++ isolateOpt opt ++ "=" ++ v]
  | Option.none => if isolateOpt opt = "processes" then ["-p"] else []

/-- The `self.cmd_base` of an explicitly acquired box (isolate.py line 239)
and the `cmd_base` of `acquire_box` (line 107). -/
def cmd_base (box_id : Nat) : List String :=
  ["isolate", "--box-id", toString box_id, "--cg"]

/-- `self.stdout_file` (isolate.py line 220). -/
def stdout_file : String := "._stdout"

/-- `self.stderr_file` (isolate.py line 221). -/
def stderr_file : String := "._stderr"

/-- Lines 342-345 of isolate.py: pass `PATH`, `LD_LIBRARY_PATH` and `LANG`
through from the host environment when `os.getenv` returns a truthy (present
and non-empty) value, as the two-element argument pair `--env NAME=VALUE`. -/
def envPassthrough (hostEnv : String → Option String) : List String :=
  (["PATH", "LD_LIBRARY_PATH", "LANG"].map
    (fun e =>
      match hostEnv e with
      | some v => if v ≠ "" then ["--env", e ++ "=" ++ v] else []
      | Option.none => [])).flatten

/-- The inputs of `Isolator.run` that shape the argv (isolate.py lines
326-361): the session's allowed directories and option set, the host and
user environments, the temporary meta-file path, the `merge_outputs` flag
and the user command line. -/
structure RunArgs where
  allowed_dirs : List String
  opts : String → Option String
  hostEnv : String → Option String
  userEnv : List (String × String)
  meta_path : String
  merge_outputs : Bool
  cmdline : List String

/-- The argv built by `Isolator.run` (isolate.py lines 328-361), in append
order: base command, `-d` pairs for allowed directories, option flags, host
environment pass-through, user environment (single `--env=K=V` elements),
meta and stdout wiring, stderr wiring or merge flag, then `--run --` and the
user command line. -/
def buildRunCmd (box_id : Nat) (a : RunArgs) : List String :=
  cmd_base box_id
    ++ (a.allowed_dirs.map (fun d => ["-d", d])).flatten
    ++ (CAMISOLE_OPTIONS.map (optionFlags a.opts)).flatten
    ++ envPassthrough a.hostEnv
    ++ a.userEnv.map (fun p => "--env=" ++ p.1 ++ "=" ++ p.2)
    ++ ["--meta=" ++ a.meta_path, "--stdout=" ++ stdout_file]
    ++ (if a.merge_outputs then ["--stderr-to-stdout"] else ["--stderr=" ++ stderr_file])
    ++ ["--run", "--"]
    ++ a.cmdline

/-- How `Isolator.run` can end (isolate.py lines 363-386): normal return with
the bytes read from the box, an `IsolateInternalError`, or a plain Python
`AttributeError` escaping from the `except` handler. -/
inductive RunOutcome where
  | ok (stdout stderr : List Nat)
  | isolateInternalError (cmd : List String)
  | attributeError
deriving DecidableEq, Repr

/-- The environment a single `Isolator.run` call observes: the exit code of
the isolate binary and the results of reading the box's `._stdout` and
`._stderr` files (`Option.none` models an `IOError`/`PermissionError`
raised by `read_bytes`). -/
structure RunEnv where
  isolate_retcode : Int
  readStdout : Option (List Nat)
  readStderr : Option (List Nat)

/-- Whether a Python 3 `OSError` (`IOError` is its alias, `PermissionError`
its subclass) carries an attribute named `message`.  It does not: `message`
was a Python 2 idiom, so the attribute access `e.message` on line 385 of
isolate.py raises `AttributeError`. -/
def oserrorHasMessageAttr : Bool := false

/-- The outcome of `Isolator.run` after the subprocess finished (isolate.py
lines 363-386): exit code `>= 2` raises `IsolateInternalError`; otherwise the
box's `._stdout` (and, unless outputs are merged, `._stderr`) is read, and a
read failure enters the `except` handler, which evaluates `e.message` while
building the `IsolateInternalError` — on Python 3 that attribute access
itself raises `AttributeError`, which is what escapes. -/
def runOutcome (cmd_run : List String) (merge_outputs : Bool) (env : RunEnv) :
    RunOutcome :=
  if env.isolate_retcode ≥ 2 then
    .isolateInternalError cmd_run
  else
    match env.readStdout with
    | Option.none =>
        if oserrorHasMessageAttr then .isolateInternalError cmd_run else .attributeError
    | some so =>
        if merge_outputs then .ok so []
        else
          match env.readStderr with
          | Option.none =>
              if oserrorHasMessageAttr then .isolateInternalError cmd_run else .attributeError
          | some se => .ok so se

/-- One `communicate` result (isolate.py lines 154-161): exit code, stdout
and stderr of the spawned isolate process. -/
structure CommResult where
  retcode : Int
  stdout : List Nat
  stderr : List Nat

/-- The external behaviour a single `acquire_box` call observes: the results
of the two possible `--init` invocations, whether the caller's body raises,
and whether the terminal cleanup raises.  The results of the cleanup
invocations are genuinely ignored by the source, so they do not appear. -/
structure AcqEnv where
  init1 : CommResult
  init2 : CommResult
  bodyRaises : Bool
  finalCleanupRaises : Bool

/-- How `acquire_box` can end: `BoxBusyError` (lock timeout),
`BoxUnavailableError` (init failed twice), the body's own exception
propagating, or normal completion. -/
inductive AcqError where
  | boxBusy
  | boxUnavailable
  | bodyError
deriving DecidableEq, Repr

/-- Observable events of one `acquire_box` call: an isolate invocation with
its argv, or a `logging.warning` call. -/
inductive Event where
  | comm (cmdline : List String)
  | warn
deriving DecidableEq, Repr

/-- The `acquire_box` context manager (isolate.py lines 69-142) as a function
of the box id, the state of the per-box lock when the call starts (`true` =
held by another request, so `asyncio.wait_for` times out) and the observed
environment.  Returns the outcome, the ordered list of events, and the final
state of the per-box lock.  On timeout the `except` clause raises
`BoxBusyError` before the second `try` block, so no isolate command runs and
the lock (never acquired, `acquired = False`) is not released; otherwise the
protocol runs pre-cleanup, init with one retry after a warning and a repeated
cleanup, the body, and a `finally` block that always performs the terminal
cleanup (its own failures swallowed with a warning) and releases the lock. -/
def acquire_box (box_id : Nat) (lockHeld : Bool) (env : AcqEnv) :
    Except AcqError Unit × List Event × Bool :=
  if lockHeld then
    (.error .boxBusy, [], true)
  else
    let cmd_cleanup := cmd_base box_id ++ ["--cleanup"]
    let cmd_init := cmd_base box_id ++ ["--init"]
    let tryPart : Except AcqError Unit × List Event :=
      if env.init1.retcode ≠ 0 then
        let ev := [Event.comm cmd_cleanup, Event.comm cmd_init, Event.warn,
                   Event.comm cmd_cleanup, Event.comm cmd_init]
        if env.init2.retcode ≠ 0 then (.error .boxUnavailable, ev)
        else if env.bodyRaises then (.error .bodyError, ev) else (.ok (), ev)
      else
        let ev := [Event.comm cmd_cleanup, Event.comm cmd_init]
        if env.bodyRaises then (.error .bodyError, ev) else (.ok (), ev)
    let finallyEv :=
      if env.finalCleanupRaises then [Event.comm cmd_cleanup, Event.warn]
      else [Event.comm cmd_cleanup]
    (tryPart.1, tryPart.2 ++ finallyEv, false)

/-- `asyncio.Lock.release` on a lock in the given state (`true` = locked):
releasing an unlocked lock raises `RuntimeError`; releasing a locked lock
succeeds and leaves it unlocked. -/
def lockRelease : Bool → Except Unit Bool
  | true => .ok false
  | false => .error ()

/-- Program counter of one request task running the `acquire_box` protocol
(isolate.py lines 94-142).  The states between `precleanup` and `finalize`
are the acquisition scope: the task holds the per-box lock there. -/
inductive Pc where
  | idle
  | precleanup
  | initTry
  | recleanup
  | initRetry
  | body
  | finalize
  | done
deriving DecidableEq, Repr

/-- Whether a program counter lies inside an acquisition scope, i.e. between
a successful `box_lock.acquire()` and the matching `box_lock.release()`. -/
def Pc.inScope : Pc → Bool
  | .idle => false
  | .done => false
  | _ => true

/-- Global state of the process: for each box id, the owner of its
`asyncio.Lock` from the `_box_locks` registry (isolate.py lines 44 and
58-66), and for each task its program counter.  Tasks and boxes are indexed
by naturals; `boxOf` fixes which box each task targets. -/
structure SysState where
  owner : Nat → Option Nat
  pc : Nat → Pc

/-- The initial state: no lock held, every task idle. -/
def initState : SysState :=
  ⟨fun _ => Option.none, fun _ => Pc.idle⟩

/-- Pointwise function update (used for one task's pc or one box's owner). -/
def upd {α : Type} (f : Nat → α) (x : Nat) (v : α) : Nat → α :=
  fun y => if y = x then v else f y

/-- Interleaving steps of the `acquire_box` protocol under the asyncio
event loop.  `asyncio.Lock.acquire` succeeds only on an unowned lock
(`lockAcquire`); `asyncio.wait_for` timing out while the lock is owned
raises `BoxBusyError` without touching the lock (`lockTimeout`, lines
99-104); the cleanup/init/retry/body/finally steps of lines 106-139 only
advance the task's own pc; the release on line 142 clears the owner. -/
inductive Step (boxOf : Nat → Nat) : SysState → SysState → Prop where
  | lockAcquire (s : SysState) (t : Nat) :
      s.pc t = .idle → s.owner (boxOf t) = Option.none →
      Step boxOf s ⟨upd s.owner (boxOf t) (some t), upd s.pc t .precleanup⟩
  | lockTimeout (s : SysState) (t : Nat) :
      s.pc t = .idle → s.owner (boxOf t) ≠ Option.none →
      Step boxOf s ⟨s.owner, upd s.pc t .done⟩
  | preCleanupDone (s : SysState) (t : Nat) :
      s.pc t = .precleanup → Step boxOf s ⟨s.owner, upd s.pc t .initTry⟩
  | initSuccess (s : SysState) (t : Nat) :
      s.pc t = .initTry → Step boxOf s ⟨s.owner, upd s.pc t .body⟩
  | initFailure (s : SysState) (t : Nat) :
      s.pc t = .initTry → Step boxOf s ⟨s.owner, upd s.pc t .recleanup⟩
  | reCleanupDone (s : SysState) (t : Nat) :
      s.pc t = .recleanup → Step boxOf s ⟨s.owner, upd s.pc t .initRetry⟩
  | retrySuccess (s : SysState) (t : Nat) :
      s.pc t = .initRetry → Step boxOf s ⟨s.owner, upd s.pc t .body⟩
  | retryFailure (s : SysState) (t : Nat) :
      s.pc t = .initRetry → Step boxOf s ⟨s.owner, upd s.pc t .finalize⟩
  | bodyDone (s : SysState) (t : Nat) :
      s.pc t = .body → Step boxOf s ⟨s.owner, upd s.pc t .finalize⟩
  | lockRel (s : SysState) (t : Nat) :
      s.pc t = .finalize →
      Step boxOf s ⟨upd s.owner (boxOf t) Option.none, upd s.pc t .done⟩

/-- States reachable from the initial state by protocol steps. -/
inductive Reachable (boxOf : Nat → Nat) : SysState → Prop where
  | init : Reachable boxOf initState
  | step (s s2 : SysState) :
      Reachable boxOf s → Step boxOf s s2 → Reachable boxOf s2

/-- Scope-ownership invariant: every task inside an acquisition scope owns
the lock of its box. -/
def scopeInv (boxOf : Nat → Nat) (s : SysState) : Prop :=
  ∀ t, (s.pc t).inScope = true → s.owner (boxOf t) = some t

lemma dictGet_dictInsert_self {α : Type} (d : List (String × α)) (k : String) (v : α) :
    dictGet (dictInsert k v d) k = some v := by
  induction d with
  | nil => simp [dictInsert, dictGet]
  | cons p rest ih =>
      by_cases h : p.1 = k
      · simp [dictInsert, h, dictGet]
      · simp [dictInsert, h, dictGet, ih]

lemma dictGet_dictInsert_ne {α : Type} (d : List (String × α)) (k k2 : String) (v : α)
    (h : k2 ≠ k) : dictGet (dictInsert k v d) k2 = dictGet d k2 := by
  have hk2 : ¬ (k = k2) := fun hh => h hh.symm
  induction d with
  | nil => simp [dictInsert, dictGet, hk2]
  | cons p rest ih =>
      by_cases hp : p.1 = k
      · have hp2 : ¬ (p.1 = k2) := by rw [hp]; exact hk2
        simp [dictInsert, hp, dictGet, hk2, hp2]
      · by_cases hp2 : p.1 = k2
        · simp [dictInsert, hp, dictGet, hp2, h]
        · simp [dictInsert, hp, dictGet, hp2, ih]

lemma dictGet_dictPop_ne {α : Type} (d : List (String × α)) (k k2 : String)
    (h : k2 ≠ k) : dictGet (dictPop k d) k2 = dictGet d k2 := by
  induction d with
  | nil => simp [dictPop, dictGet]
  | cons p rest ih =>
      by_cases hp : p.1 = k
      · have hp2 : ¬ (p.1 = k2) := by rw [hp]; exact fun hh => h hh.symm
        rw [show dictPop k (p :: rest) = dictPop k rest by
              simp [dictPop, List.filter_cons, hp],
            ih, show dictGet (p :: rest) k2 = dictGet rest k2 by
              simp [dictGet, hp2]]
      · by_cases hp2 : p.1 = k2
        · simp [dictPop, List.filter_cons, hp, dictGet, hp2, h]
        · rw [show dictPop k (p :: rest) = p :: dictPop k rest by
                simp [dictPop, List.filter_cons, hp]]
          simp [dictGet, hp2]
          simpa [dictPop] using ih

lemma dictGet_applyMetaRename_ne (m : List (String × PyVal)) (k : String)
    (h1 : k ≠ "time-wall") (h2 : k ≠ "wall-time") :
    dictGet (applyMetaRename m) k = dictGet m k := by
  unfold applyMetaRename
  cases htw : dictGet m "time-wall" with
  | none => rfl
  | some v => rw [dictGet_dictInsert_ne _ _ _ _ h2, dictGet_dictPop_ne _ _ _ h1]

lemma dictGet_applyOomOverride_ne (m : List (String × PyVal)) (k : String)
    (h : k ≠ "status") : dictGet (applyOomOverride m) k = dictGet m k := by
  unfold applyOomOverride
  by_cases ht : getTruthy m "cg-oom-killed"
  · simp [ht, dictGet_dictInsert_ne _ _ _ _ h]
  · simp [ht]

/-- The key list of a dict. -/
def dictKeys {α : Type} (d : List (String × α)) : List String :=
  d.map Prod.fst

lemma dictKeys_cons {α : Type} (p : String × α) (d : List (String × α)) :
    dictKeys (p :: d) = p.1 :: dictKeys d := rfl

lemma mem_dictKeys_iff {α : Type} (d : List (String × α)) (k : String) :
    k ∈ dictKeys d ↔ (dictGet d k).isSome := by
  induction d with
  | nil => simp [dictKeys, dictGet]
  | cons p rest ih =>
      rw [dictKeys_cons, List.mem_cons]
      by_cases hp : p.1 = k
      · constructor
        · intro _; simp [dictGet, hp]
        · intro _; exact Or.inl hp.symm
      · rw [show dictGet (p :: rest) k = dictGet rest k from by simp [dictGet, hp]]
        constructor
        · intro h
          rcases h with h | h
          · exact absurd h.symm hp
          · exact ih.1 h
        · intro h
          exact Or.inr (ih.2 h)

lemma mem_dictKeys_dictInsert {α : Type} (d : List (String × α)) (k k2 : String) (v : α)
    (h : k2 ∈ dictKeys (dictInsert k v d)) : k2 ∈ dictKeys d ∨ k2 = k := by
  induction d with
  | nil =>
      rw [show dictInsert k v ([] : List (String × α)) = [(k, v)] from rfl] at h
      rw [dictKeys_cons, List.mem_cons] at h
      rcases h with h | h
      · exact Or.inr h
      · simp [dictKeys] at h
  | cons p rest ih =>
      by_cases hp : p.1 = k
      · rw [show dictInsert k v (p :: rest) = (k, v) :: rest from by simp [dictInsert, hp]] at h
        rw [dictKeys_cons, List.mem_cons] at h
        rcases h with h | h
        · exact Or.inr h
        · exact Or.inl (by rw [dictKeys_cons, List.mem_cons]; exact Or.inr h)
      · rw [show dictInsert k v (p :: rest) = p :: dictInsert k v rest from by
              simp [dictInsert, hp]] at h
        rw [dictKeys_cons, List.mem_cons] at h
        rcases h with h | h
        · exact Or.inl (by rw [dictKeys_cons, List.mem_cons]; exact Or.inl h)
        · rcases ih h with h2 | h2
          · exact Or.inl (by rw [dictKeys_cons, List.mem_cons]; exact Or.inr h2)
          · exact Or.inr h2

lemma nodup_dictKeys_dictInsert {α : Type} (d : List (String × α)) (k : String) (v : α)
    (h : (dictKeys d).Nodup) : (dictKeys (dictInsert k v d)).Nodup := by
  induction d with
  | nil => simp [dictInsert, dictKeys]
  | cons p rest ih =>
      rw [dictKeys_cons, List.nodup_cons] at h
      by_cases hp : p.1 = k
      · rw [show dictInsert k v (p :: rest) = (k, v) :: rest from by simp [dictInsert, hp]]
        rw [dictKeys_cons, List.nodup_cons]
        exact ⟨hp ▸ h.1, h.2⟩
      · rw [show dictInsert k v (p :: rest) = p :: dictInsert k v rest from by
              simp [dictInsert, hp]]
        rw [dictKeys_cons, List.nodup_cons]
        refine ⟨?_, ih h.2⟩
        intro hmem
        rcases mem_dictKeys_dictInsert rest k p.1 v hmem with h2 | h2
        · exact h.1 h2
        · exact hp h2

lemma buildRawDictAux_error (lines : List String) :
    ∀ d line, line ∈ lines → splitOnceColon line = Option.none →
      buildRawDictAux d lines = .error .valueError := by
  induction lines with
  | nil => intro d line h; simp at h
  | cons a rest ih =>
      intro d line hmem hsplit
      rcases List.mem_cons.1 hmem with h | h
      · subst h
        simp [buildRawDictAux, hsplit]
      · cases hs : splitOnceColon a with
        | none => simp [buildRawDictAux, hs]
        | some kv => simpa [buildRawDictAux, hs] using ih _ line h hsplit

lemma dictGet_dictInsert_isSome {α : Type} (d : List (String × α)) (k k2 : String) (v : α)
    (h : (dictGet d k).isSome) : (dictGet (dictInsert k2 v d) k).isSome := by
  by_cases hk : k = k2
  · subst hk; simp [dictGet_dictInsert_self]
  · rwa [dictGet_dictInsert_ne _ _ _ _ hk]

lemma buildRawDictAux_preserves (lines : List String) :
    ∀ d raw k, buildRawDictAux d lines = .ok raw → (dictGet d k).isSome →
      (dictGet raw k).isSome := by
  induction lines with
  | nil => intro d raw k hok h; simp [buildRawDictAux] at hok; subst hok; exact h
  | cons a rest ih =>
      intro d raw k hok h
      cases hs : splitOnceColon a with
      | none => simp [buildRawDictAux, hs] at hok
      | some kv =>
          simp [buildRawDictAux, hs] at hok
          exact ih _ raw k hok (dictGet_dictInsert_isSome _ _ _ _ h)

lemma buildRawDictAux_adds (lines : List String) :
    ∀ d raw line k v, line ∈ lines → splitOnceColon line = some (k, v) →
      buildRawDictAux d lines = .ok raw → (dictGet raw k).isSome := by
  induction lines with
  | nil => intro d raw line k v h; simp at h
  | cons a rest ih =>
      intro d raw line k v hmem hsplit hok
      cases hs : splitOnceColon a with
      | none => simp [buildRawDictAux, hs] at hok
      | some kv =>
          simp [buildRawDictAux, hs] at hok
          rcases List.mem_cons.1 hmem with h | h
          · subst h
            rw [hsplit] at hs
            injection hs with hs
            subst hs
            exact buildRawDictAux_preserves rest _ raw k hok
              (by simp [dictGet_dictInsert_self])
          · exact ih _ raw line k v h hsplit hok

lemma buildRawDictAux_nodup (lines : List String) :
    ∀ d raw, (dictKeys d).Nodup → buildRawDictAux d lines = .ok raw →
      (dictKeys raw).Nodup := by
  induction lines with
  | nil => intro d raw h hok; simp [buildRawDictAux] at hok; subst hok; exact h
  | cons a rest ih =>
      intro d raw h hok
      cases hs : splitOnceColon a with
      | none => simp [buildRawDictAux, hs] at hok
      | some kv =>
          simp [buildRawDictAux, hs] at hok
          exact ih _ raw (nodup_dictKeys_dictInsert _ _ _ h) hok

lemma coerceEntry_fst (k v : String) (q : String × PyVal)
    (h : coerceEntry k v = .ok q) : q.1 = k := by
  unfold coerceEntry at h
  cases hd : dictGet meta_defaults k with
  | none => simp [hd] at h
  | some dflt =>
      rw [hd] at h
      cases dflt with
      | vnone => injection h with h; exact h ▸ rfl
      | vint n =>
          cases hpi : pyInt v with
          | error e => simp [hpi, Except.map] at h
          | ok n2 =>
              simp only [hpi, Except.map] at h
              injection h with h
              exact h ▸ rfl
      | vfloat num2 scale2 =>
          cases hpf : pyFloat v with
          | error e => simp [hpf, Except.map] at h
          | ok p2 =>
              simp only [hpf, Except.map] at h
              injection h with h
              exact h ▸ rfl
      | vbool b => injection h with h; exact h ▸ rfl
      | vstr r => injection h with h; exact h ▸ rfl

lemma coerceAll_unknown (raw : List (String × String)) (k : String)
    (h1 : (dictGet raw k).isSome) (h2 : dictGet meta_defaults k = Option.none) :
    ∃ e, coerceAll raw = .error e := by
  induction raw with
  | nil => simp [dictGet] at h1
  | cons p rest ih =>
      by_cases hp : p.1 = k
      · refine ⟨.keyError k, ?_⟩
        have : coerceEntry p.1 p.2 = .error (.keyError k) := by
          rw [hp]; unfold coerceEntry; rw [h2]
        simp [coerceAll, this]
      · have h1r : (dictGet rest k).isSome := by simpa [dictGet, hp] using h1
        cases hc : coerceEntry p.1 p.2 with
        | error e => exact ⟨e, by simp [coerceAll, hc]⟩
        | ok q =>
            rcases ih h1r with ⟨e, he⟩
            exact ⟨e, by simp [coerceAll, hc, he]⟩

lemma coerceAll_keys (raw : List (String × String)) :
    ∀ m0, coerceAll raw = .ok m0 → dictKeys m0 = dictKeys raw := by
  induction raw with
  | nil => intro m0 h; injection h with h; rw [← h]; rfl
  | cons p rest ih =>
      intro m0 h
      unfold coerceAll at h
      cases hc : coerceEntry p.1 p.2 with
      | error e => rw [hc] at h; exact absurd h (by simp)
      | ok q =>
          rw [hc] at h
          cases hr : coerceAll rest with
          | error e => rw [hr] at h; exact absurd h (by simp)
          | ok m2 =>
              rw [hr] at h
              injection h with h
              rw [← h, dictKeys_cons, dictKeys_cons, coerceEntry_fst p.1 p.2 q hc,
                  ih m2 hr]

lemma coerceAll_get_some (raw : List (String × String)) :
    ∀ m0 k v, coerceAll raw = .ok m0 → dictGet raw k = some v →
      ∃ pv, coerceEntry k v = .ok (k, pv) ∧ dictGet m0 k = some pv := by
  induction raw with
  | nil => intro m0 k v _ hg; simp [dictGet] at hg
  | cons p rest ih =>
      intro m0 k v h hg
      unfold coerceAll at h
      cases hc : coerceEntry p.1 p.2 with
      | error e => rw [hc] at h; exact absurd h (by simp)
      | ok q =>
          rw [hc] at h
          cases hr : coerceAll rest with
          | error e => rw [hr] at h; exact absurd h (by simp)
          | ok m2 =>
              rw [hr] at h
              injection h with h
              have hq1 := coerceEntry_fst p.1 p.2 q hc
              by_cases hp : p.1 = k
              · have hv : v = p.2 := by
                  rw [show dictGet (p :: rest) k = some p.2 from by simp [dictGet, hp]] at hg
                  injection hg with hg
                  exact hg.symm
                refine ⟨q.2, ?_, ?_⟩
                · rw [hv, ← hp]
                  rw [show (p.1, q.2) = q from by rw [← hq1]]
                  exact hc
                · rw [← h]
                  simp [dictGet, hq1 ▸ hp]
              · have hg2 : dictGet rest k = some v := by
                  rw [show dictGet (p :: rest) k = dictGet rest k from by
                        simp [dictGet, hp]] at hg
                  exact hg
                rcases ih m2 k v hr hg2 with ⟨pv, hce, hgm⟩
                refine ⟨pv, hce, ?_⟩
                rw [← h]
                have : ¬ (q.1 = k) := by rw [hq1]; exact hp
                simp [dictGet, this]
                exact hgm

lemma coerceAll_get_none (raw : List (String × String)) :
    ∀ m0 k, coerceAll raw = .ok m0 → dictGet raw k = Option.none →
      dictGet m0 k = Option.none := by
  induction raw with
  | nil => intro m0 k h _; injection h with h; rw [← h]; rfl
  | cons p rest ih =>
      intro m0 k h hg
      unfold coerceAll at h
      cases hc : coerceEntry p.1 p.2 with
      | error e => rw [hc] at h; exact absurd h (by simp)
      | ok q =>
          rw [hc] at h
          cases hr : coerceAll rest with
          | error e => rw [hr] at h; exact absurd h (by simp)
          | ok m2 =>
              rw [hr] at h
              injection h with h
              have hq1 := coerceEntry_fst p.1 p.2 q hc
              by_cases hp : p.1 = k
              · rw [show dictGet (p :: rest) k = some p.2 from by simp [dictGet, hp]] at hg
                exact absurd hg (by simp)
              · have hg2 : dictGet rest k = Option.none := by
                  rw [show dictGet (p :: rest) k = dictGet rest k from by
                        simp [dictGet, hp]] at hg
                  exact hg
                rw [← h]
                have : ¬ (q.1 = k) := by rw [hq1]; exact hp
                simp [dictGet, this]
                exact ih m2 k hr hg2

lemma dictGet_dictMerge {α : Type} (m : List (String × α)) :
    ∀ base k, (dictKeys m).Nodup →
      dictGet (dictMerge base m) k =
        (match dictGet m k with
         | some v => some v
         | Option.none => dictGet base k) := by
  induction m with
  | nil => intro base k _; rfl
  | cons p rest ih =>
      intro base k hnd
      rw [dictKeys_cons, List.nodup_cons] at hnd
      rw [show dictMerge base (p :: rest) = dictMerge (dictInsert p.1 p.2 base) rest from rfl]
      rw [ih _ k hnd.2]
      cases hr : dictGet rest k with
      | some v =>
          have hp : ¬ (p.1 = k) := by
            intro hh
            exact hnd.1 (hh ▸ (mem_dictKeys_iff rest k).2 (by simp [hr]))
          simp [dictGet, hp, hr]
      | none =>
          by_cases hp : p.1 = k
          · rw [show dictGet (p :: rest) k = some p.2 from by simp [dictGet, hp]]
            rw [← hp, dictGet_dictInsert_self]
          · rw [show dictGet (p :: rest) k = dictGet rest k from by simp [dictGet, hp], hr]
            rw [dictGet_dictInsert_ne _ _ _ _ (fun hh => hp hh.symm)]

lemma dictGet_fillExitsigMessage_ne (sigMsg : Int → String)
    (m : List (String × PyVal)) (k : String) (h : k ≠ "exitsig-message") :
    dictGet (fillExitsigMessage sigMsg m) k = dictGet m k := by
  unfold fillExitsigMessage
  cases hs : dictGet m "exitsig" with
  | none => rfl
  | some v =>
      cases v with
      | vint n => rw [dictGet_dictInsert_ne _ _ _ _ h]
      | vfloat num scale => rfl
      | vbool b => rfl
      | vstr r => rfl
      | vnone => rfl

/-- The meta dict produced from an empty meta file: the defaults with the
short status translated (OK stays OK) and time-wall renamed to wall-time. -/
def default_meta_parsed : List (String × PyVal) :=
  [("cg-mem", .vint 0),
   ("cg-oom-killed", .vint 0),
   ("csw-forced", .vint 0),
   ("csw-voluntary", .vint 0),
   ("exitcode", .vint 0),
   ("exitsig", .vint 0),
   ("exitsig-message", .vnone),
   ("killed", .vbool false),
   ("max-rss", .vint 0),
   ("message", .vnone),
   ("status", .vstr "OK"),
   ("time", .vfloat 0 0),
   ("wall-time", .vfloat 0 0)]

/-- The meta dict actually produced by parsing the encoded defaults: `killed`
comes back as `True` (Python `bool` of the non-empty string `False`),
`exitsig-message` is filled from the encoded `exitsig:0` line, and `message`
becomes the literal string `None`. -/
def roundtripMeta : List (String × PyVal) :=
  [("cg-mem", .vint 0),
   ("cg-oom-killed", .vint 0),
   ("csw-forced", .vint 0),
   ("csw-voluntary", .vint 0),
   ("exitcode", .vint 0),
   ("exitsig", .vint 0),
   ("exitsig-message", .vstr "Unknown signal 0"),
   ("killed", .vbool true),
   ("max-rss", .vint 0),
   ("message", .vstr "None"),
   ("status", .vstr "OK"),
   ("time", .vfloat 0 0),
   ("wall-time", .vfloat 0 0)]

/-- C10: an `Isolator` session that is entered and exited without any `run`
call produces an info record whose `stdout`, `stderr` and `exitcode` are all
`None`, and whose meta equals the default MetaRecord with verbose status `OK`
and `time-wall` renamed to `wall-time`. -/
theorem session_no_run_info (sigMsg : Int → String) :
    sessionNoRunInfo sigMsg =
      .ok ⟨Option.none, Option.none, Option.none, default_meta_parsed⟩ := rfl

/-- C8 counterexample: encoding the default MetaRecord to `key:value` lines
and parsing does not give back the defaults: the `killed` field comes back
`True` although its default is `False`. -/
theorem meta_roundtrip_cex :
    (aexit_meta signal_message (encodeMeta meta_defaults)).map
        (fun m => dictGet m "killed") = .ok (some (.vbool true))
    ∧ dictGet meta_defaults "killed" = some (.vbool false) := ⟨rfl, rfl⟩

/-- C8 amended: parsing the encoded default MetaRecord yields the defaults
for every integer, float and status field, but `killed` becomes `True`
(Python `bool` of the non-empty string `False`), `exitsig-message` is filled
from the encoded `exitsig:0` line, and `message` becomes the string `None`. -/
theorem meta_roundtrip_actual :
    aexit_meta signal_message (encodeMeta meta_defaults) = .ok roundtripMeta := rfl

/-- C9 counterexample: a meta file whose `killed` line has an empty value
parses successfully with `killed = False` even though the key is present,
so `False` does not occur only when the key is absent. -/
theorem killed_empty_value_cex :
    splitOnceColon "killed:" = some ("killed", "")
    ∧ (aexit_meta signal_message ["killed:"]).map (fun m => dictGet m "killed")
        = .ok (some (.vbool false)) := ⟨rfl, rfl⟩

/-- C1 counterexample: the metadata parser does not silently tolerate
non-conforming lines: a line with an unrecognized key raises `KeyError` and
a non-empty line without a colon raises `ValueError`. -/
theorem meta_parse_nonconforming_cex :
    aexit_meta signal_message ["foo:bar"] = .error (.keyError "foo")
    ∧ aexit_meta signal_message ["foobar"] = .error .valueError := ⟨rfl, rfl⟩

/-- Whether a run outcome is an `IsolateInternalError`. -/
def RunOutcome.isInternalError : RunOutcome → Bool
  | .isolateInternalError _ => true
  | .ok _ _ => false
  | .attributeError => false

/-- C2: when the isolator exits with code 0 or 1 but reading the box's
`._stdout` (or, unmerged, `._stderr`) file raises an IOError, `run` does not
fail with `IsolateInternalError`: the handler's `e.message` attribute access
(isolate.py line 385) raises `AttributeError` instead, for every command. -/
theorem run_read_failure_attribute_error (cmd_run : List String) :
    runOutcome cmd_run false ⟨0, Option.none, Option.none⟩ = .attributeError
    ∧ runOutcome cmd_run false ⟨1, some [], Option.none⟩ = .attributeError
    ∧ (runOutcome cmd_run false ⟨0, Option.none, Option.none⟩).isInternalError
        = false := ⟨rfl, rfl, rfl⟩

/-- C3: a lock-acquisition timeout makes `acquire_box` fail with
`BoxBusyError` while running no cleanup or init command and leaving the lock
exactly as it was (still held by the other request); the holder's subsequent
release succeeds, and a second release of the then-free lock fails, i.e. the
release succeeds exactly once. -/
theorem acquire_box_timeout_boxbusy (box_id : Nat) (env : AcqEnv) :
    acquire_box box_id true env = (.error .boxBusy, [], true)
    ∧ lockRelease true = .ok false
    ∧ lockRelease false = .error () := ⟨rfl, rfl, rfl⟩

/-- C4: when the first init invocation exits non-zero, `acquire_box` logs a
warning, repeats cleanup and retries init exactly once; if the second init
also exits non-zero the call fails with `BoxUnavailableError`, the terminal
cleanup still runs, and the per-box lock is released. -/
theorem acquire_box_init_retry_unavailable (box_id : Nat) (env : AcqEnv)
    (h1 : env.init1.retcode ≠ 0) (h2 : env.init2.retcode ≠ 0) :
    acquire_box box_id false env =
      (.error .boxUnavailable,
       [Event.comm (cmd_base box_id ++ ["--cleanup"]),
        Event.comm (cmd_base box_id ++ ["--init"]),
        Event.warn,
        Event.comm (cmd_base box_id ++ ["--cleanup"]),
        Event.comm (cmd_base box_id ++ ["--init"])]
        ++ (if env.finalCleanupRaises then
              [Event.comm (cmd_base box_id ++ ["--cleanup"]), Event.warn]
            else [Event.comm (cmd_base box_id ++ ["--cleanup"])]),
       false) := by
  unfold acquire_box
  simp [h1, h2]

/-- An environment in which both init invocations exit 1. -/
def initFailEnv : AcqEnv := ⟨⟨1, [], []⟩, ⟨1, [], []⟩, false, false⟩

/-- Witness for C4: box 0 with both inits exiting 1. -/
theorem acquire_box_init_retry_unavailable_witness :
    initFailEnv.init1.retcode ≠ 0 ∧ initFailEnv.init2.retcode ≠ 0 ∧
    acquire_box 0 false initFailEnv =
      (.error .boxUnavailable,
       [Event.comm (cmd_base 0 ++ ["--cleanup"]),
        Event.comm (cmd_base 0 ++ ["--init"]),
        Event.warn,
        Event.comm (cmd_base 0 ++ ["--cleanup"]),
        Event.comm (cmd_base 0 ++ ["--init"])]
        ++ (if initFailEnv.finalCleanupRaises then
              [Event.comm (cmd_base 0 ++ ["--cleanup"]), Event.warn]
            else [Event.comm (cmd_base 0 ++ ["--cleanup"])]),
       false) :=
  ⟨by decide, by decide,
   acquire_box_init_retry_unavailable 0 initFailEnv (by decide) (by decide)⟩

lemma mem_buildRunCmd_of_optionFlags (b : Nat) (a : RunArgs) (opt x : String)
    (hopt : opt ∈ CAMISOLE_OPTIONS) (hx : x ∈ optionFlags a.opts opt) :
    x ∈ buildRunCmd b a := by
  unfold buildRunCmd
  have hseg : x ∈ (CAMISOLE_OPTIONS.map (optionFlags a.opts)).flatten :=
    List.mem_flatten.2 ⟨optionFlags a.opts opt, List.mem_map_of_mem _ hopt, hx⟩
  simp only [List.mem_append]
  tauto

lemma isolateOpt_eq_processes (opt : String) (h : isolateOpt opt = "processes") :
    opt = "processes" := by
  by_cases hv : opt = "virt-mem"
  · subst hv; exact absurd h (by decide)
  · by_cases hm : opt = "mem"
    · subst hm; exact absurd h (by decide)
    · have hv2 : ¬ ("virt-mem" = opt) := fun hh => hv hh.symm
      have hm2 : ¬ ("mem" = opt) := fun hh => hm hh.symm
      rwa [show isolateOpt opt = opt from by
            unfold isolateOpt
            rw [show dictGet CAMISOLE_TO_ISOLATE_OPTS opt = Option.none from by
                  simp [CAMISOLE_TO_ISOLATE_OPTS, dictGet, hv2, hm2]]] at h

/-- C6: the argv built by `run` maps option keys through
`CAMISOLE_TO_ISOLATE_OPTS`: a supplied `mem=X` emits `--cg-mem=X`, a supplied
`virt-mem=Y` emits `--mem=Y`, a supplied `processes=N` emits
`--processes=N`, an omitted `processes` emits the short `-p`
unlimited-processes flag, and any other omitted key contributes no flag. -/
theorem run_option_mapping (b : Nat) (a : RunArgs) (X Y N : String) :
    (a.opts "mem" = some X → ("--cg-mem=" ++ X) ∈ buildRunCmd b a)
    ∧ (a.opts "virt-mem" = some Y → ("--mem=" ++ Y) ∈ buildRunCmd b a)
    ∧ (a.opts "processes" = some N → ("--processes=" ++ N) ∈ buildRunCmd b a)
    ∧ (a.opts "processes" = Option.none → "-p" ∈ buildRunCmd b a)
    ∧ (∀ opt, a.opts opt = Option.none → opt ≠ "processes" →
        optionFlags a.opts opt = []) := by
  refine ⟨?_, ?_, ?_, ?_, ?_⟩
  · intro h
    refine mem_buildRunCmd_of_optionFlags b a "mem" _ (by decide) ?_
    rw [show optionFlags a.opts "mem" = ["--cg-mem=" ++ X] from by
          unfold optionFlags
          rw [h]
          rfl]
    exact List.mem_singleton.2 rfl
  · intro h
    refine mem_buildRunCmd_of_optionFlags b a "virt-mem" _ (by decide) ?_
    rw [show optionFlags a.opts "virt-mem" = ["--mem=" ++ Y] from by
          unfold optionFlags
          rw [h]
          rfl]
    exact List.mem_singleton.2 rfl
  · intro h
    refine mem_buildRunCmd_of_optionFlags b a "processes" _ (by decide) ?_
    rw [show optionFlags a.opts "processes" = ["--processes=" ++ N] from by
          unfold optionFlags
          rw [h]
          rfl]
    exact List.mem_singleton.2 rfl
  · intro h
    refine mem_buildRunCmd_of_optionFlags b a "processes" _ (by decide) ?_
    rw [show optionFlags a.opts "processes" = ["-p"] from by
          unfold optionFlags
          rw [h]
          rfl]
    exact List.mem_singleton.2 rfl
  · intro opt h1 h2
    unfold optionFlags
    rw [h1]
    exact if_neg (fun hiso => h2 (isolateOpt_eq_processes opt hiso))

/-- Run arguments with `mem` and `virt-mem` supplied and `processes`
omitted. -/
def runArgsA : RunArgs :=
  ⟨[], fun k => if k = "mem" then some "100000"
       else if k = "virt-mem" then some "200000" else Option.none,
   fun _ => Option.none, [], "metapath", false, ["./prog"]⟩

/-- Run arguments with `processes` supplied. -/
def runArgsB : RunArgs :=
  ⟨[], fun k => if k = "processes" then some "4" else Option.none,
   fun _ => Option.none, [], "metapath", false, ["./prog"]⟩

/-- Witness for C6 on concrete option sets. -/
theorem run_option_mapping_witness :
    runArgsA.opts "mem" = some "100000"
    ∧ ("--cg-mem=100000" ∈ buildRunCmd 0 runArgsA)
    ∧ ("--mem=200000" ∈ buildRunCmd 0 runArgsA)
    ∧ ("-p" ∈ buildRunCmd 0 runArgsA)
    ∧ ("--processes=4" ∈ buildRunCmd 0 runArgsB)
    ∧ optionFlags runArgsA.opts "time" = [] :=
  ⟨by decide,
   (run_option_mapping 0 runArgsA "100000" "200000" "").1 (by decide),
   (run_option_mapping 0 runArgsA "100000" "200000" "").2.1 (by decide),
   (run_option_mapping 0 runArgsA "" "" "").2.2.2.1 (by decide),
   (run_option_mapping 0 runArgsB "" "" "4").2.2.1 (by decide),
   (run_option_mapping 0 runArgsA "" "" "").2.2.2.2 "time" (by decide) (by decide)⟩

lemma scopeInv_pcStep (boxOf : Nat → Nat) (s : SysState) (t : Nat) (p : Pc)
    (hold : (s.pc t).inScope = true)
    (ih : scopeInv boxOf s) : scopeInv boxOf ⟨s.owner, upd s.pc t p⟩ := by
  intro u hu
  by_cases hut : u = t
  · subst hut
    exact ih u hold
  · exact ih u (by simpa [upd, hut] using hu)

lemma scopeInv_pcExit (boxOf : Nat → Nat) (s : SysState) (t : Nat)
    (ih : scopeInv boxOf s) : scopeInv boxOf ⟨s.owner, upd s.pc t .done⟩ := by
  intro u hu
  by_cases hut : u = t
  · subst hut
    simp [upd, Pc.inScope] at hu
  · exact ih u (by simpa [upd, hut] using hu)

lemma reachable_scopeInv (boxOf : Nat → Nat) (s : SysState)
    (h : Reachable boxOf s) : scopeInv boxOf s := by
  induction h with
  | init => intro t ht; simp [initState, Pc.inScope] at ht
  | step s s2 hr hstep ih =>
      cases hstep with
      | lockAcquire t hpc howner =>
          intro u hu
          by_cases hut : u = t
          · subst hut
            simp [upd]
          · have hu2 : (s.pc u).inScope = true := by simpa [upd, hut] using hu
            have hou := ih u hu2
            by_cases hb : boxOf u = boxOf t
            · rw [hb, howner] at hou
              exact absurd hou (by simp)
            · simpa [upd, hb] using hou
      | lockTimeout t hpc howner => exact scopeInv_pcExit boxOf s t ih
      | preCleanupDone t hpc =>
          exact scopeInv_pcStep boxOf s t _ (by rw [hpc]; rfl) ih
      | initSuccess t hpc =>
          exact scopeInv_pcStep boxOf s t _ (by rw [hpc]; rfl) ih
      | initFailure t hpc =>
          exact scopeInv_pcStep boxOf s t _ (by rw [hpc]; rfl) ih
      | reCleanupDone t hpc =>
          exact scopeInv_pcStep boxOf s t _ (by rw [hpc]; rfl) ih
      | retrySuccess t hpc =>
          exact scopeInv_pcStep boxOf s t _ (by rw [hpc]; rfl) ih
      | retryFailure t hpc =>
          exact scopeInv_pcStep boxOf s t _ (by rw [hpc]; rfl) ih
      | bodyDone t hpc =>
          exact scopeInv_pcStep boxOf s t _ (by rw [hpc]; rfl) ih
      | lockRel t hpc =>
          intro u hu
          by_cases hut : u = t
          · subst hut
            simp [upd, Pc.inScope] at hu
          · have hu2 : (s.pc u).inScope = true := by simpa [upd, hut] using hu
            have hou := ih u hu2
            have hot := ih t (by rw [hpc]; rfl)
            by_cases hb : boxOf u = boxOf t
            · rw [hb, hot] at hou
              injection hou with hou
              exact absurd hou.symm hut
            · simpa [upd, hb] using hou

/-- C5: in every reachable state of the acquisition protocol, at most one
task is inside an acquisition scope (between a successful lock and its
release) for any given box: two tasks in scope for the same box are equal. -/
theorem acquire_scope_mutual_exclusion (boxOf : Nat → Nat) (s : SysState)
    (h : Reachable boxOf s) (t u : Nat)
    (ht : (s.pc t).inScope = true) (hu : (s.pc u).inScope = true)
    (hbox : boxOf t = boxOf u) : t = u := by
  have h1 := reachable_scopeInv boxOf s h t ht
  have h2 := reachable_scopeInv boxOf s h u hu
  rw [hbox, h2] at h1
  injection h1 with h1
  exact h1.symm

/-- A state with task 0 inside the scope for box 0, reached by one
`lockAcquire` step. -/
def sampleScopeState : SysState :=
  ⟨upd initState.owner 0 (some 0), upd initState.pc 0 .precleanup⟩

/-- Witness for C5: the reachable state `sampleScopeState` with both tasks
instantiated to task 0. -/
theorem acquire_scope_mutual_exclusion_witness :
    Reachable (fun _ => 0) sampleScopeState
    ∧ (sampleScopeState.pc 0).inScope = true
    ∧ (0 : Nat) = 0 :=
  have hr : Reachable (fun _ => 0) sampleScopeState :=
    Reachable.step initState sampleScopeState Reachable.init
      (Step.lockAcquire initState 0 rfl rfl)
  ⟨hr, rfl,
   acquire_scope_mutual_exclusion (fun _ => 0) sampleScopeState hr 0 0 rfl rfl rfl⟩

lemma aexit_meta_ok_last (sigMsg : Int → String) (content : List String)
    (m : List (String × PyVal)) (h : aexit_meta sigMsg content = .ok m) :
    ∃ merged, m = applyMetaRename (applyOomOverride merged)
      ∧ ∃ raw m0, buildRawDict (stripNonEmpty content) = .ok raw
        ∧ coerceAll raw = .ok m0
        ∧ applyVerboseStatus
            (dictMerge meta_defaults (fillExitsigMessage sigMsg m0)) = .ok merged := by
  unfold aexit_meta at h
  cases hb : buildRawDict (stripNonEmpty content) with
  | error e => rw [hb] at h; exact absurd h (by simp)
  | ok raw =>
      simp only [hb] at h
      cases hc : coerceAll raw with
      | error e => rw [hc] at h; exact absurd h (by simp)
      | ok m0 =>
          simp only [hc] at h
          cases hv : applyVerboseStatus
              (dictMerge meta_defaults (fillExitsigMessage sigMsg m0)) with
          | error e => rw [hv] at h; exact absurd h (by simp)
          | ok merged =>
              simp only [hv] at h
              injection h with h
              exact ⟨merged, h.symm, raw, m0, rfl, hc, hv⟩

/-- C7: whenever parsing succeeds and the parsed `cg-oom-killed` value is
truthy, the resulting `status` is `OUT_OF_MEMORY`, whatever short status code
the isolator reported (in particular for a meta file with `status:OK` and
`cg-oom-killed:1`, as the witness instantiates). -/
theorem oom_override_status (sigMsg : Int → String) (content : List String)
    (m : List (String × PyVal)) (h : aexit_meta sigMsg content = .ok m)
    (hoom : getTruthy m "cg-oom-killed" = true) :
    dictGet m "status" = some (.vstr "OUT_OF_MEMORY") := by
  obtain ⟨merged, hm, -⟩ := aexit_meta_ok_last sigMsg content m h
  subst hm
  have hoc : dictGet (applyMetaRename (applyOomOverride merged)) "cg-oom-killed"
      = dictGet merged "cg-oom-killed" := by
    rw [dictGet_applyMetaRename_ne _ _ (by decide) (by decide),
        dictGet_applyOomOverride_ne _ _ (by decide)]
  have hgt : getTruthy merged "cg-oom-killed" = true := by
    unfold getTruthy at hoom ⊢
    rw [hoc] at hoom
    exact hoom
  have hoo : applyOomOverride merged
      = dictInsert "status" (.vstr "OUT_OF_MEMORY") merged := by
    unfold applyOomOverride
    rw [hgt]
    simp
  rw [hoo, dictGet_applyMetaRename_ne _ _ (by decide) (by decide),
      dictGet_dictInsert_self]

/-- The meta dict parsed from `status:OK` and `cg-oom-killed:1`. -/
def oomMeta : List (String × PyVal) :=
  [("cg-mem", .vint 0),
   ("cg-oom-killed", .vint 1),
   ("csw-forced", .vint 0),
   ("csw-voluntary", .vint 0),
   ("exitcode", .vint 0),
   ("exitsig", .vint 0),
   ("exitsig-message", .vnone),
   ("killed", .vbool false),
   ("max-rss", .vint 0),
   ("message", .vnone),
   ("status", .vstr "OUT_OF_MEMORY"),
   ("time", .vfloat 0 0),
   ("wall-time", .vfloat 0 0)]

/-- Witness for C7: the meta file with `status:OK` and `cg-oom-killed:1`. -/
theorem oom_override_status_witness :
    aexit_meta signal_message ["status:OK", "cg-oom-killed:1"] = .ok oomMeta
    ∧ getTruthy oomMeta "cg-oom-killed" = true
    ∧ dictGet oomMeta "status" = some (.vstr "OUT_OF_MEMORY") :=
  ⟨rfl, rfl,
   oom_override_status signal_message ["status:OK", "cg-oom-killed:1"] oomMeta
     rfl rfl⟩

/-- C1 amended: the metadata parser raises on non-conforming lines: a
non-empty line without a colon makes the dict construction raise
`ValueError`, and a line whose key is not a recognized meta key makes the
coercion raise; only empty/whitespace lines are skipped. -/
theorem meta_parse_nonconforming_raises (sigMsg : Int → String) :
    (∀ content line, line ∈ content → pyStrip line ≠ "" →
        splitOnceColon (pyStrip line) = Option.none →
        aexit_meta sigMsg content = .error .valueError)
    ∧ (∀ content line k v, line ∈ content →
        splitOnceColon (pyStrip line) = some (k, v) →
        dictGet meta_defaults k = Option.none →
        ∃ e, aexit_meta sigMsg content = .error e) := by
  constructor
  · intro content line hmem hne hsplit
    have hmem2 : pyStrip line ∈ stripNonEmpty content := by
      unfold stripNonEmpty
      exact List.mem_filter.2 ⟨List.mem_map_of_mem _ hmem, by simpa using hne⟩
    have hb := buildRawDictAux_error (stripNonEmpty content) [] _ hmem2 hsplit
    unfold aexit_meta buildRawDict
    rw [hb]
  · intro content line k v hmem hsplit hk
    have hne : pyStrip line ≠ "" := by
      intro hh
      rw [hh] at hsplit
      exact absurd hsplit (by rw [show splitOnceColon "" = Option.none from rfl]; simp)
    have hmem2 : pyStrip line ∈ stripNonEmpty content := by
      unfold stripNonEmpty
      exact List.mem_filter.2 ⟨List.mem_map_of_mem _ hmem, by simpa using hne⟩
    cases hb : buildRawDict (stripNonEmpty content) with
    | error e =>
        refine ⟨e, ?_⟩
        unfold aexit_meta
        rw [hb]
    | ok raw =>
        have hkey : (dictGet raw k).isSome :=
          buildRawDictAux_adds (stripNonEmpty content) [] raw _ k v hmem2 hsplit hb
        rcases coerceAll_unknown raw k hkey hk with ⟨e, he⟩
        refine ⟨e, ?_⟩
        unfold aexit_meta
        simp only [hb]
        rw [he]

/-- Witness for C1 amended: a colon-free line and an unknown-key line. -/
theorem meta_parse_nonconforming_raises_witness :
    aexit_meta signal_message ["garbage line"] = .error .valueError
    ∧ ∃ e, aexit_meta signal_message ["unknown-key:7"] = .error e :=
  ⟨(meta_parse_nonconforming_raises signal_message).1 ["garbage line"]
     "garbage line" (by decide) (by decide) (by decide),
   (meta_parse_nonconforming_raises signal_message).2 ["unknown-key:7"]
     "unknown-key:7" "unknown-key" "7" (by decide) (by decide) (by decide)⟩

lemma applyVerboseStatus_ok (m merged : List (String × PyVal))
    (h : applyVerboseStatus m = .ok merged) :
    ∃ vs, merged = dictInsert "status" (.vstr vs) m := by
  unfold applyVerboseStatus at h
  split at h
  · split at h
    · injection h with h
      exact ⟨_, h.symm⟩
    · exact absurd h (by simp)
  · exact absurd h (by simp)

lemma dictKeys_fillExitsigMessage_nodup (sigMsg : Int → String)
    (m0 : List (String × PyVal)) (h : (dictKeys m0).Nodup) :
    (dictKeys (fillExitsigMessage sigMsg m0)).Nodup := by
  unfold fillExitsigMessage
  cases hs : dictGet m0 "exitsig" with
  | none => exact h
  | some vv =>
      cases vv with
      | vint n => exact nodup_dictKeys_dictInsert _ _ _ h
      | vfloat a b => exact h
      | vbool b => exact h
      | vstr r => exact h
      | vnone => exact h

/-- C9 amended: the `killed` field is coerced with Python `bool()` applied to
the raw value string recorded for `killed` in the line dictionary (the last
`killed` line wins): any non-empty value — including `0` and `false` — parses
as `True`, an empty value parses as `False`, and an absent key leaves the
default `False`. -/
theorem killed_coercion (sigMsg : Int → String) (content : List String)
    (raw : List (String × String)) (m : List (String × PyVal))
    (hraw : buildRawDict (stripNonEmpty content) = .ok raw)
    (hm : aexit_meta sigMsg content = .ok m) :
    (∀ v, dictGet raw "killed" = some v →
        dictGet m "killed" = some (.vbool (v ≠ "")))
    ∧ (dictGet raw "killed" = Option.none →
        dictGet m "killed" = some (.vbool false)) := by
  obtain ⟨merged, hmm, raw2, m0, hb2, hc, hv⟩ := aexit_meta_ok_last sigMsg content m hm
  rw [hraw] at hb2
  injection hb2 with hb2
  subst hb2
  obtain ⟨vs, hvs⟩ := applyVerboseStatus_ok _ merged hv
  have hnodraw : (dictKeys raw).Nodup :=
    buildRawDictAux_nodup (stripNonEmpty content) [] raw (by simp [dictKeys]) hraw
  have hkeys : dictKeys m0 = dictKeys raw := coerceAll_keys raw m0 hc
  have hnodfill : (dictKeys (fillExitsigMessage sigMsg m0)).Nodup :=
    dictKeys_fillExitsigMessage_nodup sigMsg m0 (hkeys ▸ hnodraw)
  have hchain : dictGet m "killed"
      = dictGet (dictMerge meta_defaults (fillExitsigMessage sigMsg m0)) "killed" := by
    rw [hmm, dictGet_applyMetaRename_ne _ _ (by decide) (by decide),
        dictGet_applyOomOverride_ne _ _ (by decide), hvs,
        dictGet_dictInsert_ne _ _ _ _ (by decide)]
  have hfill : dictGet (fillExitsigMessage sigMsg m0) "killed" = dictGet m0 "killed" :=
    dictGet_fillExitsigMessage_ne sigMsg m0 "killed" (by decide)
  have hmerge := dictGet_dictMerge (fillExitsigMessage sigMsg m0) meta_defaults "killed" hnodfill
  constructor
  · intro v hgv
    obtain ⟨pv, hce, hm0⟩ := coerceAll_get_some raw m0 "killed" v hc hgv
    have hpv : pv = .vbool (v ≠ "") := by
      rw [show coerceEntry "killed" v = .ok ("killed", .vbool (v ≠ "")) from rfl] at hce
      injection hce with hce
      have := congrArg Prod.snd hce
      exact this.symm
    rw [hchain, hmerge, hfill, hm0, hpv]
  · intro hgn
    have hm0 : dictGet m0 "killed" = Option.none := coerceAll_get_none raw m0 "killed" hc hgn
    rw [hchain, hmerge, hfill, hm0]
    rfl

/-- The meta dict parsed from the single line `killed:0`. -/
def killedMeta : List (String × PyVal) :=
  [("cg-mem", .vint 0),
   ("cg-oom-killed", .vint 0),
   ("csw-forced", .vint 0),
   ("csw-voluntary", .vint 0),
   ("exitcode", .vint 0),
   ("exitsig", .vint 0),
   ("exitsig-message", .vnone),
   ("killed", .vbool true),
   ("max-rss", .vint 0),
   ("message", .vnone),
   ("status", .vstr "OK"),
   ("time", .vfloat 0 0),
   ("wall-time", .vfloat 0 0)]

/-- Witness for C9 amended: the line `killed:0` parses to `killed = True`. -/
theorem killed_coercion_witness :
    buildRawDict (stripNonEmpty ["killed:0"]) = .ok [("killed", "0")]
    ∧ aexit_meta signal_message ["killed:0"] = .ok killedMeta
    ∧ dictGet killedMeta "killed" = some (.vbool true) :=
  ⟨rfl, rfl,
   (killed_coercion signal_message ["killed:0"] [("killed", "0")] killedMeta
      rfl rfl).1 "0" rfl⟩
